import Mathlib

/-!
Verification of the resource-lifetime mechanism (class ArrayP and the
resource cell laid out by create_array_resource in c_src/emlx_nif.cpp) and
of the call bridge (c_src/nif_call.h) of the emlx native library, as a
shallow embedding.  Machine integers are modelled as Int (the refcount is a
C std atomic int and the traces considered stay far from 32-bit overflow);
the sequential semantics models one operation at a time on one handle.
-/

/-- State of one array resource cell as laid out by create_array_resource
(emlx_nif.cpp lines 138-156): the MLX array object, followed by an atomic
int reference counter and an atomic one-shot deleted flag.  refcount holds
the counter value, deleted the flag; destroyCount is a ghost field counting
how many times the array destructor has been invoked on the cell. -/
structure Handle where
  refcount : Int
  deleted : Bool
  destroyCount : Nat
deriving DecidableEq

/-- Result of the ArrayP constructor: ok, or one of the two error returns
(the Invalid token error and the Deallocated error). -/
inductive AcqResult where
  | ok
  | invalid
  | deallocated
deriving DecidableEq

/-- Initial cell built by create_array_resource (emlx_nif.cpp lines
148-150): counter initialised to 1, flag cleared, destructor never run. -/
def create_array_resource : Handle :=
  { refcount := 1, deleted := false, destroyCount := 0 }

/-- ArrayP constructor body once the token has resolved (emlx_nif.cpp lines
72-82): when the refcount loads as 0 the wrapper is invalidated and the
Deallocated error is recorded; otherwise the refcount is incremented. -/
def ArrayP.construct (h : Handle) : AcqResult × Handle :=
  if h.refcount = 0 then (AcqResult.deallocated, h)
  else (AcqResult.ok, { h with refcount := h.refcount + 1 })

/-- ArrayP constructor including token resolution (emlx_nif.cpp lines
62-83): an unresolved token fails with the Invalid error before the cell is
read or written. -/
def ArrayP.constructTok (resolved : Bool) (h : Handle) : AcqResult × Handle :=
  if resolved then ArrayP.construct h else (AcqResult.invalid, h)

/-- ArrayP destructor for a valid wrapper (emlx_nif.cpp lines 85-92):
fetch_sub(1) decrements and returns the value held before the decrement, so
the array destructor runs exactly when the value read before the decrement
equals 0. -/
def ArrayP.destruct (h : Handle) : Handle :=
  if h.refcount = 0 then
    { refcount := h.refcount - 1, deleted := h.deleted,
      destroyCount := h.destroyCount + 1 }
  else
    { h with refcount := h.refcount - 1 }

/-- ArrayP deallocate for a valid wrapper (emlx_nif.cpp lines 94-101):
atomic_flag_test_and_set sets the flag and returns its previous value; on
the first call (flag previously clear) the refcount is decremented and true
returned, on any later call false is returned and nothing changes. -/
def ArrayP.deallocate (h : Handle) : Bool × Handle :=
  if h.deleted then (false, h)
  else (true, { h with refcount := h.refcount - 1, deleted := true })

/-- free_array (emlx_nif.cpp lines 560-565), the destructor hook the host
garbage collector invokes: for a non-null cell it calls the array
destructor unconditionally, reading neither the refcount nor the deleted
flag. -/
def free_array (h : Handle) : Handle :=
  { h with destroyCount := h.destroyCount + 1 }

/-- Operations a caller can perform on one handle through the NIF layer:
acq opens a scoped ArrayP wrapper and holds it, rel lets one held wrapper
leave scope (running the ArrayP destructor), dealloc performs the explicit
release (which itself opens a scoped wrapper, calls deallocate on it, and
lets it leave scope). -/
inductive Op where
  | acq
  | rel
  | dealloc
deriving DecidableEq

/-- System state of a trace over one handle: the cell plus the number of
valid scoped wrappers currently held. -/
structure Sys where
  h : Handle
  live : Nat
deriving DecidableEq

/-- State right after create_array_resource returns, before any use. -/
def initSys : Sys := { h := create_array_resource, live := 0 }

/-- Explicit release as performed through the NIF layer: construct a scoped
wrapper, call deallocate on it, and let the wrapper leave scope.  On an
invalid wrapper (refcount loaded as 0) deallocate returns false and the
wrapper destructor does nothing.  Returns the boolean result of deallocate
with the new state. -/
def deallocStep (s : Sys) : Bool × Sys :=
  let r := ArrayP.construct s.h
  if r.1 = AcqResult.ok then
    let d := ArrayP.deallocate r.2
    (d.1, { s with h := ArrayP.destruct d.2 })
  else
    (false, { s with h := r.2 })

/-- One trace step.  A rel with no wrapper held is a no-op (a scoped
wrapper can only be released once, at the end of the scope that holds
it). -/
def stepOp : Op → Sys → Sys
  | Op.acq, s =>
    let r := ArrayP.construct s.h
    if r.1 = AcqResult.ok then { h := r.2, live := s.live + 1 }
    else { s with h := r.2 }
  | Op.rel, s =>
    if s.live = 0 then s
    else { h := ArrayP.destruct s.h, live := s.live - 1 }
  | Op.dealloc, s => (deallocStep s).2

/-- Run a trace of operations from a state. -/
def execOps (ops : List Op) (s : Sys) : Sys :=
  ops.foldl (fun t op => stepOp op t) s

/-- Contribution of the deleted flag to the counter accounting. -/
def dVal (b : Bool) : Int := if b then 1 else 0

/-- Invariant of every reachable state: the counter equals one (the
creation reference) plus the number of held wrappers minus one if the
explicit release already ran, and the array destructor has never run. -/
def SysInv (s : Sys) : Prop :=
  s.h.refcount = 1 + (s.live : Int) - dVal s.h.deleted ∧ s.h.destroyCount = 0

/-- Erlang terms as the call bridge moves them: atoms, integers, and the
three-tuples make_nif_call sends. -/
inductive Term where
  | atom (s : String)
  | int (n : Int)
  | tuple3 (a b c : Term)
deriving DecidableEq

/-- enif_make_copy: a deep copy of a term into another environment.
Environments govern lifetime only, so the copy is structural. -/
def enif_make_copy : Term → Term
  | Term.atom s => Term.atom s
  | Term.int n => Term.int n
  | Term.tuple3 a b c =>
    Term.tuple3 (enif_make_copy a) (enif_make_copy b) (enif_make_copy c)

/-- Pieces of a call context allocated by prepare_nif_call: the resource
record itself, the isolated message environment, the mutex, and the
condition variable. -/
inductive Piece where
  | res
  | env
  | mtx
  | cond
deriving DecidableEq

/-- Allocation or release of one piece, as logged in program order. -/
inductive AllocEvent where
  | alloc (p : Piece)
  | free (p : Piece)
deriving DecidableEq

/-- Oracle telling which of the four allocation calls inside
prepare_nif_call succeed. -/
structure AllocOracle where
  resOk : Bool
  envOk : Bool
  mtxOk : Bool
  condOk : Bool
deriving DecidableEq

/-- prepare_nif_call (nif_call.h lines 51-81) under an allocation oracle:
whether a context was produced, with the allocation and release calls made,
in program order.  The branches transcribe the code: a failed
enif_alloc_resource allocates nothing; on env failure the resource is
released; on mutex failure the env is freed then the resource released; on
cond failure the env is freed, the mutex destroyed, then the resource
released. -/
def prepare_nif_call (o : AllocOracle) : Bool × List AllocEvent :=
  if o.resOk = false then (false, [])
  else if o.envOk = false then
    (false, [AllocEvent.alloc Piece.res, AllocEvent.free Piece.res])
  else if o.mtxOk = false then
    (false, [AllocEvent.alloc Piece.res, AllocEvent.alloc Piece.env,
             AllocEvent.free Piece.env, AllocEvent.free Piece.res])
  else if o.condOk = false then
    (false, [AllocEvent.alloc Piece.res, AllocEvent.alloc Piece.env,
             AllocEvent.alloc Piece.mtx, AllocEvent.free Piece.env,
             AllocEvent.free Piece.mtx, AllocEvent.free Piece.res])
  else
    (true, [AllocEvent.alloc Piece.res, AllocEvent.alloc Piece.env,
            AllocEvent.alloc Piece.mtx, AllocEvent.alloc Piece.cond])

/-- Fold one event into the list of pieces currently allocated. -/
def applyEvent (l : List Piece) : AllocEvent → List Piece
  | AllocEvent.alloc p => l ++ [p]
  | AllocEvent.free p => l.erase p

/-- Pieces still allocated after a log of events. -/
def livePieces (ev : List AllocEvent) : List Piece :=
  ev.foldl applyEvent []

/-- Sequence of pieces allocated, in order, ignoring releases. -/
def allocSeq (ev : List AllocEvent) : List Piece :=
  ev.filterMap (fun e => match e with
    | AllocEvent.alloc p => some p
    | AllocEvent.free _ => none)

/-- Initial segments of the dependency order env, mutex, cond in which the
context pieces proper are allocated. -/
def allocOrderOK (ps : List Piece) : Prop :=
  ps = [] ∨ ps = [Piece.env] ∨ ps = [Piece.env, Piece.mtx] ∨
    ps = [Piece.env, Piece.mtx, Piece.cond]

instance (ps : List Piece) : Decidable (allocOrderOK ps) := by
  unfold allocOrderOK
  infer_instance

/-- Call context record (nif_call.h lines 34-45): the result slot and its
is-set flag, with a ghost count of cond-signal calls. -/
structure CallbackNifRes where
  return_value : Term
  return_value_set : Bool
  signalCount : Nat
deriving DecidableEq

/-- Context as prepare_nif_call hands it out (nif_call.h lines 77-78): slot
holding the nil atom, flag clear. -/
def freshCallbackRes : CallbackNifRes :=
  { return_value := Term.atom ("nil"), return_value_set := false,
    signalCount := 0 }

/-- Entry of make_nif_call (nif_call.h lines 83-85): when prepare_nif_call
yields no context the enomem atom is returned to the caller at once,
otherwise the freshly prepared context is used. -/
def make_nif_call_start (o : AllocOracle) : Except Term CallbackNifRes :=
  if (prepare_nif_call o).1 then Except.ok freshCallbackRes
  else Except.error (Term.atom ("enomem"))

/-- nif_call_evaluated (nif_call.h lines 106-115): copies its value
argument into the context message environment, sets the is-set flag,
signals the condition variable, and returns the ok atom.  No
already-completed check exists anywhere in the function. -/
def nif_call_evaluated (res : CallbackNifRes) (v : Term) :
    CallbackNifRes × Term :=
  ({ return_value := enif_make_copy v, return_value_set := true,
     signalCount := res.signalCount + 1 }, Term.atom ("ok"))

/-- Wait loop of make_nif_call (nif_call.h lines 94-101): while the is-set
flag is clear the caller stays blocked (no value); once it is set, the slot
value is copied back into the caller environment and returned. -/
def make_nif_call_wait (res : CallbackNifRes) : Option Term :=
  if res.return_value_set then some (enif_make_copy res.return_value)
  else none

theorem enif_make_copy_eq (t : Term) : enif_make_copy t = t := by
  induction t with
  | atom s => rfl
  | int n => rfl
  | tuple3 a b c iha ihb ihc => simp [enif_make_copy, iha, ihb, ihc]

theorem sysInv_init : SysInv initSys := by
  constructor <;> decide

theorem sysInv_step (op : Op) (s : Sys) (hs : SysInv s) :
    SysInv (stepOp op s) := by
  obtain ⟨⟨rc, del, dc⟩, live⟩ := s
  obtain ⟨hrc, hdc⟩ := hs
  simp only [SysInv] at hrc hdc ⊢
  cases del <;> simp only [dVal, if_true, if_false] at hrc ⊢ <;>
    cases op <;>
      simp only [stepOp, deallocStep, ArrayP.construct, ArrayP.deallocate,
                 ArrayP.destruct] <;>
      split_ifs <;> simp_all <;> omega

theorem sysInv_exec_from (ops : List Op) (s : Sys) (hs : SysInv s) :
    SysInv (execOps ops s) := by
  induction ops generalizing s with
  | nil => exact hs
  | cons op rest ih => exact ih (stepOp op s) (sysInv_step op s hs)

theorem sysInv_exec (ops : List Op) : SysInv (execOps ops initSys) :=
  sysInv_exec_from ops initSys sysInv_init

theorem deleted_false_exec_from (ops : List Op) (s : Sys)
    (hops : Op.dealloc ∉ ops) (hd : s.h.deleted = false) :
    (execOps ops s).h.deleted = false := by
  induction ops generalizing s with
  | nil => exact hd
  | cons op rest ih =>
    have hop : op ≠ Op.dealloc := fun h => hops (h ▸ List.mem_cons_self op rest)
    have hrest : Op.dealloc ∉ rest := fun h => hops (List.mem_cons_of_mem op h)
    refine ih (stepOp op s) hrest ?_
    obtain ⟨⟨rc, del, dc⟩, live⟩ := s
    simp only at hd
    subst hd
    cases op with
    | acq => by_cases h0 : rc = 0 <;> simp [stepOp, ArrayP.construct, h0]
    | rel =>
      by_cases hl : live = 0
      · simp [stepOp, hl]
      · by_cases h0 : rc = 0 <;> simp [stepOp, hl, ArrayP.destruct, h0]
    | dealloc => exact absurd rfl hop

theorem deallocStep_first (s : Sys) (hd : s.h.deleted = false)
    (hpos : 0 < s.h.refcount) :
    deallocStep s =
      (true, { s with h := { refcount := s.h.refcount - 1, deleted := true,
                             destroyCount := s.h.destroyCount } }) := by
  obtain ⟨⟨rc, del, dc⟩, live⟩ := s
  simp only at hd hpos
  subst hd
  have h0 : rc ≠ 0 := by omega
  have h1 : rc + 1 - 1 ≠ 0 := by omega
  simp [deallocStep, ArrayP.construct, ArrayP.deallocate, ArrayP.destruct,
        h0, h1]

theorem deallocStep_again (s : Sys) (hd : s.h.deleted = true)
    (hnn : 0 ≤ s.h.refcount) :
    deallocStep s = (false, s) := by
  obtain ⟨⟨rc, del, dc⟩, live⟩ := s
  simp only at hd hnn
  subst hd
  by_cases h0 : rc = 0
  · simp [deallocStep, ArrayP.construct, h0]
  · have h1 : rc + 1 ≠ 0 := by omega
    simp [deallocStep, ArrayP.construct, ArrayP.deallocate, ArrayP.destruct,
          h0, h1]

/-- Claim C1: the spec says the scoped release destroys the object exactly
on the counter transition from 1 to 0.  The code destroys exactly when the
value read before the decrement is 0: on the trace create, acquire,
deallocate, release, the final release takes the counter from 1 to 0 and
the destructor does not run, while a release finding the counter at 0
takes it to -1 and does run the destructor. -/
theorem claim_C1_release_divergence :
    (execOps [Op.acq, Op.dealloc] initSys).h.refcount = 1 ∧
    (execOps [Op.acq, Op.dealloc, Op.rel] initSys).h.refcount = 0 ∧
    (execOps [Op.acq, Op.dealloc, Op.rel] initSys).h.destroyCount = 0 ∧
    ArrayP.destruct { refcount := 0, deleted := false, destroyCount := 0 } =
      { refcount := -1, deleted := false, destroyCount := 1 } := by
  refine ⟨by decide, by decide, by decide, by decide⟩

/-- Claim C2: the spec says the destructor runs exactly once, never zero
times.  In the code, across every sequence of acquire, release and
deallocate operations on a handle the destructor runs zero times (releases
destroy only when the pre-decrement value is 0, unreachable sequentially,
and deallocate never destroys); in particular after create then deallocate
the counter is 0 and the destructor has not run. -/
theorem claim_C2_never_destroys (ops : List Op) :
    (execOps ops initSys).h.destroyCount = 0 ∧
    (execOps [Op.dealloc] initSys).h.refcount = 0 ∧
    (execOps [Op.dealloc] initSys).h.destroyCount = 0 :=
  ⟨(sysInv_exec ops).2, by decide, by decide⟩

/-- Claim C3 counterexample: after create, acquire (wrapper held), and a
successful explicit deallocate, the one-shot flag is set, yet a further
acquire succeeds because the counter still reads 1, not 0. -/
theorem claim_C3_counterexample :
    (execOps [Op.acq, Op.dealloc] initSys).h.deleted = true ∧
    (ArrayP.construct (execOps [Op.acq, Op.dealloc] initSys).h).1 =
      AcqResult.ok := by
  refine ⟨by decide, by decide⟩

/-- Claim C3 (amended): acquire consults only the counter: it fails with
the Deallocated error exactly when the counter reads zero, in which case it
leaves the cell unchanged and yields no usable reference; a set one-shot
flag alone does not make acquire fail. -/
theorem claim_C3_acquire_counter_only (h : Handle) :
    ((ArrayP.construct h).1 = AcqResult.deallocated ↔ h.refcount = 0) ∧
    (h.refcount = 0 → (ArrayP.construct h).2 = h) ∧
    ((ArrayP.construct h).1 = AcqResult.ok ↔ h.refcount ≠ 0) := by
  by_cases h0 : h.refcount = 0 <;> simp [ArrayP.construct, h0]

/-- Claim C4: on the trace create, acquire, release, deallocate the counter
takes the values 1, 2, 1, 0 and the subsequent acquire fails with the
Deallocated error, as the spec says; but the destructor does not run when
deallocate brings the counter to 0 (ghost destroy count stays 0), against
the claim. -/
theorem claim_C4_scenario_divergence :
    (execOps [] initSys).h.refcount = 1 ∧
    (execOps [Op.acq] initSys).h.refcount = 2 ∧
    (execOps [Op.acq, Op.rel] initSys).h.refcount = 1 ∧
    (execOps [Op.acq, Op.rel, Op.dealloc] initSys).h.refcount = 0 ∧
    (execOps [Op.acq, Op.rel, Op.dealloc] initSys).h.destroyCount = 0 ∧
    (ArrayP.construct (execOps [Op.acq, Op.rel, Op.dealloc] initSys).h).1 =
      AcqResult.deallocated := by
  refine ⟨by decide, by decide, by decide, by decide, by decide, by decide⟩

/-- Claim C5: the invoker stays blocked while complete has not run, and
once nif_call_evaluated is called with a value v the wait loop returns
exactly v: the value is copied into the context environment and copied back
into the caller environment, and both copies preserve the term. -/
theorem claim_C5_roundtrip (res : CallbackNifRes) (v : Term)
    (hunset : res.return_value_set = false) :
    make_nif_call_wait res = none ∧
    make_nif_call_wait (nif_call_evaluated res v).1 = some v := by
  constructor
  · simp [make_nif_call_wait, hunset]
  · simp [make_nif_call_wait, nif_call_evaluated, enif_make_copy_eq]

theorem claim_C5_roundtrip_witness :
    make_nif_call_wait freshCallbackRes = none ∧
    make_nif_call_wait
      (nif_call_evaluated freshCallbackRes (Term.int 3)).1 =
        some (Term.int 3) :=
  claim_C5_roundtrip freshCallbackRes (Term.int 3) rfl

/-- Claim C6: the first explicit deallocate on a handle (after any
dealloc-free use) wins the test-and-set: it returns true, decrements the
counter by one and sets the flag; on any reachable state whose flag is
already set, a further deallocate returns false and leaves the state
exactly unchanged. -/
theorem claim_C6_deallocate_once (ops1 ops2 : List Op)
    (hops : Op.dealloc ∉ ops1) (s : Sys) (hs : s = execOps ops2 initSys)
    (hdel : s.h.deleted = true) :
    (deallocStep (execOps ops1 initSys)).1 = true ∧
    (deallocStep (execOps ops1 initSys)).2.h.refcount =
      (execOps ops1 initSys).h.refcount - 1 ∧
    (deallocStep (execOps ops1 initSys)).2.h.deleted = true ∧
    deallocStep s = (false, s) := by
  have hd1 : (execOps ops1 initSys).h.deleted = false :=
    deleted_false_exec_from ops1 initSys hops rfl
  have hpos : 0 < (execOps ops1 initSys).h.refcount := by
    have hrc := (sysInv_exec ops1).1
    rw [hd1] at hrc
    simp [dVal] at hrc
    omega
  have h1 := deallocStep_first (execOps ops1 initSys) hd1 hpos
  have hnn : 0 ≤ s.h.refcount := by
    subst hs
    have hrc := (sysInv_exec ops2).1
    cases hb : (execOps ops2 initSys).h.deleted <;>
      rw [hb] at hrc <;> simp [dVal] at hrc <;> omega
  have h2 := deallocStep_again s hdel hnn
  rw [h1, h2]
  simp

theorem claim_C6_deallocate_once_witness :
    (deallocStep (execOps [Op.acq] initSys)).1 = true ∧
    (deallocStep (execOps [Op.acq] initSys)).2.h.refcount =
      (execOps [Op.acq] initSys).h.refcount - 1 ∧
    (deallocStep (execOps [Op.acq] initSys)).2.h.deleted = true ∧
    deallocStep (execOps [Op.dealloc] initSys) =
      (false, execOps [Op.dealloc] initSys) :=
  claim_C6_deallocate_once [Op.acq] [Op.dealloc] (by decide)
    (execOps [Op.dealloc] initSys) rfl (by decide)

/-- Claim C7: prepare_nif_call allocates the isolated environment, the
mutex and the condition variable in that order (after the resource record
itself); whenever it fails, every piece allocated for the attempt has been
released when it returns, and make_nif_call surfaces the failure as the
enomem atom; on success all four pieces were allocated in dependency
order. -/
theorem claim_C7_prepare_cleanup (o : AllocOracle) :
    allocOrderOK
      ((allocSeq (prepare_nif_call o).2).filter (fun p => p != Piece.res)) ∧
    ((prepare_nif_call o).1 = false →
      livePieces (prepare_nif_call o).2 = [] ∧
      make_nif_call_start o = Except.error (Term.atom ("enomem"))) ∧
    ((prepare_nif_call o).1 = true →
      allocSeq (prepare_nif_call o).2 =
        [Piece.res, Piece.env, Piece.mtx, Piece.cond]) := by
  obtain ⟨r, e, m, c⟩ := o
  cases r <;> cases e <;> cases m <;> cases c <;>
    refine ⟨by decide, fun hf => ?_, fun ht => ?_⟩ <;>
    first
      | exact ⟨by decide, rfl⟩
      | decide
      | exact absurd hf (by decide)
      | exact absurd ht (by decide)

/-- Claim C8: acquire fails with the Invalid error when the token does not
resolve (cell untouched), fails with the Deallocated error when the counter
reads zero (cell untouched), and otherwise increments the counter and
succeeds. -/
theorem claim_C8_acquire_cases (resolved : Bool) (h : Handle) :
    (resolved = false →
      ArrayP.constructTok resolved h = (AcqResult.invalid, h)) ∧
    (resolved = true → h.refcount = 0 →
      ArrayP.constructTok resolved h = (AcqResult.deallocated, h)) ∧
    (resolved = true → h.refcount ≠ 0 →
      ArrayP.constructTok resolved h =
        (AcqResult.ok, { h with refcount := h.refcount + 1 })) := by
  refine ⟨fun hr => ?_, fun hr h0 => ?_, fun hr h0 => ?_⟩ <;>
    subst hr <;> simp [ArrayP.constructTok, ArrayP.construct, *]

/-- Claim C9: free_array destroys unconditionally: its effect is the same
for every value of the counter and of the one-shot flag (it only runs the
destructor once more), so applied to a cell whose destructor already ran
through the release path it destroys a second time. -/
theorem claim_C9_finalizer_unconditional (rc : Int) (d : Bool) (n : Nat) :
    free_array { refcount := rc, deleted := d, destroyCount := n } =
      { refcount := rc, deleted := d, destroyCount := n + 1 } ∧
    (free_array (ArrayP.destruct
      { refcount := 0, deleted := d, destroyCount := 0 })).destroyCount = 2 := by
  constructor
  · rfl
  · simp [free_array, ArrayP.destruct]

/-- Claim C10: a second completion on an already-completed context is not
rejected: nif_call_evaluated overwrites the result slot with the new value,
leaves the is-set flag true, signals the condition variable again, and
returns the ok atom. -/
theorem claim_C10_recomplete (res : CallbackNifRes) (v : Term)
    (hset : res.return_value_set = true) :
    (nif_call_evaluated res v).1.return_value = v ∧
    (nif_call_evaluated res v).1.return_value_set = true ∧
    (nif_call_evaluated res v).1.signalCount = res.signalCount + 1 ∧
    (nif_call_evaluated res v).2 = Term.atom ("ok") := by
  simp [nif_call_evaluated, enif_make_copy_eq]

theorem claim_C10_recomplete_witness :
    (nif_call_evaluated
      { return_value := Term.int 1, return_value_set := true,
        signalCount := 1 } (Term.int 2)).1.return_value = Term.int 2 ∧
    (nif_call_evaluated
      { return_value := Term.int 1, return_value_set := true,
        signalCount := 1 } (Term.int 2)).1.return_value_set = true ∧
    (nif_call_evaluated
      { return_value := Term.int 1, return_value_set := true,
        signalCount := 1 } (Term.int 2)).1.signalCount = 1 + 1 ∧
    (nif_call_evaluated
      { return_value := Term.int 1, return_value_set := true,
        signalCount := 1 } (Term.int 2)).2 = Term.atom ("ok") :=
  claim_C10_recomplete
    { return_value := Term.int 1, return_value_set := true,
      signalCount := 1 } (Term.int 2) rfl
